import Mathlib

/-!
Shallow embedding of `src/backend/src/handler/api/post.rs` (chamsae).

The module implements three HTTP handlers over a relational store:
`post_post` (create a post with ordered file attachments inside one
transaction, then dispatch a federation "create" activity),
`get_post` (assemble the denormalized read model), and
`delete_post` (idempotent delete, then dispatch a federation "delete"
activity).

Modelling decisions:
* `Uuid` values are `Nat`; timestamps are `Int`.
* The database is a record of tables (lists of rows); a sea-orm
  transaction is modelled by state passing: a handler that fails before
  commit returns the original database (implicit rollback on drop).
* External collaborators (configured domain, `Uuid::new_v4`, `Utc::now`,
  the `mime`/`url` parsers, and the federation dispatcher of
  `into_json`/`into_create`/`send` and `Delete::new`/`send`) are fields
  of an `Env` record; handlers are deterministic functions of `Env`.
* Parsed `Mime`/`Url` values are represented by the `String` produced by
  the corresponding `Env` parser.
-/

/-- Error taxonomy of `crate::error`: NotFound vs internal server error. -/
inductive Err where
  | notFound (msg : String)
  | internal (msg : String)
deriving Repr, DecidableEq

/-- Wire visibility vocabulary (`enum Visibility`, post.rs lines 34-39). -/
inductive Visibility where
  | public
  | home
  | followers
  | directMessage
deriving Repr, DecidableEq

/-- Storage visibility vocabulary (`sea_orm_active_enums::Visibility`). -/
inductive DbVisibility where
  | public
  | home
  | followers
  | directMessage
deriving Repr, DecidableEq

/-- A row of the `post` table (fields set in post.rs lines 81-96). -/
structure Post where
  id : Nat
  createdAt : Int
  replyId : Option Nat
  text : String
  title : Option String
  userId : Option Nat
  visibility : DbVisibility
  isSensitive : Bool
  uri : String
deriving Repr, DecidableEq

/-- A row of the `local_file` table, as consumed by the creation path:
an already-uploaded file that can be attached to a post. -/
structure LocalFile where
  id : Nat
  mediaType : String
  url : String
  alt : Option String
deriving Repr, DecidableEq

/-- A row of the `remote_file` table: the attachment association read
back by `get_post` (post.rs lines 197-213) with its stored order. -/
structure RemoteFile where
  postId : Nat
  order : Nat
  mediaType : String
  url : String
  alt : Option String
deriving Repr, DecidableEq

/-- A row of the `reaction` table (fields read in post.rs lines 221-243). -/
structure Reaction where
  postId : Nat
  userId : Option Nat
  content : String
  emojiMediaType : Option String
  emojiImageUrl : Option String
deriving Repr, DecidableEq

/-- A row of the `user` table (handle + host projections). -/
structure User where
  id : Nat
  handle : String
  host : String
deriving Repr, DecidableEq

/-- The relational store. -/
structure Db where
  posts : List Post
  localFiles : List LocalFile
  remoteFiles : List RemoteFile
  reactions : List Reaction
  users : List User
deriving Repr, DecidableEq

/-- External collaborators of the handlers. `parseMime`/`parseUrl`
return the parsed value's representation, `none` on parse failure
(`Mime::from_str(..).ok()` / `Url::parse(..).ok()`); `dispatchCreate`
models `into_json` + `into_create` + `send`, and `dispatchDelete` models
`Delete::new` + `send` on the already-parsed URI. -/
structure Env where
  domain : String
  freshId : Nat
  now : Int
  parseMime : String → Option String
  parseUrl : String → Option String
  dispatchCreate : Post → Except Err Unit
  dispatchDelete : String → Except Err Unit

/-- Request body of `POST /` (`PostPostReq`, camelCase wire fields). -/
structure PostPostReq where
  replyId : Option Nat
  text : String
  title : Option String
  visibility : Visibility
  isSensitive : Bool
  files : List Nat
deriving Repr, DecidableEq

/-- The wire→storage visibility match of post.rs lines 88-93. -/
def intoStorage : Visibility → DbVisibility
  | .public => .public
  | .home => .home
  | .followers => .followers
  | .directMessage => .directMessage

/-- The storage→wire visibility match of post.rs lines 252-257. -/
def intoWire : DbVisibility → Visibility
  | .public => .public
  | .home => .home
  | .followers => .followers
  | .directMessage => .directMessage

/-- The post row built by `post_post` (post.rs lines 80-96): fresh id,
current time, `user_id` unconditionally `None`, and the canonical URI
`https://{CONFIG.domain}/ap/post/{id}`. -/
def newPost (env : Env) (req : PostPostReq) : Post :=
  { id := env.freshId
    createdAt := env.now
    replyId := req.replyId
    text := req.text
    title := req.title
    userId := none
    visibility := intoStorage req.visibility
    isSensitive := req.isSensitive
    uri := "https://" ++ env.domain ++ "/ap/post/" ++ toString env.freshId }

/-- `post_activemodel.insert(&tx)` (post.rs lines 97-100): a primary-key
conflict makes the insert fail as an internal error; otherwise the row
is appended. -/
def insertPost (p : Post) (db : Db) : Except Err Db :=
  if db.posts.any (fun q => q.id == p.id) then
    .error (.internal "failed to insert to database")
  else
    .ok { db with posts := db.posts ++ [p] }

/-- Modelled from the spec: `local_file::Model::attach_to_post` is not
under `src/` (only its call site is). Per the spec it creates the
ordered attachment association between the file and the post with the
given order value; order values are bounded to at most 256 distinct
positions per post, and violating that distinctness is a constraint
violation that fails the insert. -/
def LocalFile.attach_to_post (file : LocalFile) (postId : Nat) (order : Nat)
    (db : Db) : Except Err Db :=
  if db.remoteFiles.any (fun rf => rf.postId == postId && rf.order == order) then
    .error (.internal "attachment order constraint violation")
  else
    .ok { db with remoteFiles := db.remoteFiles ++
      [{ postId := postId, order := order, mediaType := file.mediaType
         url := file.url, alt := file.alt }] }

/-- The attachment loop of post.rs lines 102-109: for each file id in
input order, look up the local file (NotFound when missing) and attach
it with order `idx as u8`, i.e. `idx % 256`. -/
def attachFiles (postId : Nat) (files : List Nat) (idx : Nat) (db : Db) :
    Except Err Db :=
  match files with
  | [] => .ok db
  | fid :: rest =>
    match db.localFiles.find? (fun lf => lf.id == fid) with
    | none => .error (.notFound "file not found")
    | some file =>
      match file.attach_to_post postId (idx % 256) db with
      | .error e => .error e
      | .ok db1 => attachFiles postId rest (idx + 1) db1

/-- The insert-then-attach part of `post_post` (post.rs lines 80-109):
insert the new post row, then run the attachment loop. -/
def post_post_insert (env : Env) (req : PostPostReq) (db : Db) :
    Except Err (Post × Db) :=
  match insertPost (newPost env req) db with
  | .error e => .error e
  | .ok db1 =>
    match attachFiles env.freshId req.files 0 db1 with
    | .error e => .error e
    | .ok db2 => .ok (newPost env req, db2)

/-- The transactional part of `post_post` (post.rs lines 64-113): reply
target check, post insert, attachment loop. Failure anywhere aborts the
unit; success returns the inserted row and the committed state. -/
def post_post_tx (env : Env) (req : PostPostReq) (db : Db) :
    Except Err (Post × Db) :=
  match req.replyId with
  | some replyId =>
    if (db.posts.filter (fun p => p.id == replyId)).length == 0 then
      .error (.notFound "reply target post not found")
    else
      post_post_insert env req db
  | none => post_post_insert env req db

/-- `post_post` (post.rs lines 59-121). The transaction commits first;
only then is the create activity rendered and dispatched, so a dispatch
failure is reported to the caller although the post is already durably
stored. On a pre-commit failure the original state is returned
(rollback). The result value is the created post's id. -/
def post_post (env : Env) (req : PostPostReq) (db : Db) :
    Except Err Nat × Db :=
  match post_post_tx env req db with
  | .error e => (.error e, db)
  | .ok (post, db1) =>
    match env.dispatchCreate post with
    | .error e => (.error e, db1)
    | .ok _ => (.ok post.id, db1)

/-- Owner projection of the read model (`GetPostRespUser`). -/
structure GetPostRespUser where
  handle : String
  host : String
deriving Repr, DecidableEq

/-- Attachment projection of the read model (`GetPostRespFile`). -/
structure GetPostRespFile where
  mediaType : String
  url : String
  alt : Option String
deriving Repr, DecidableEq

/-- Custom-emoji projection (`GetPostRespReactionEmoji`). -/
structure GetPostRespReactionEmoji where
  mediaType : String
  imageUrl : String
deriving Repr, DecidableEq

/-- Reaction projection of the read model (`GetPostRespReaction`). -/
structure GetPostRespReaction where
  user : Option GetPostRespUser
  content : String
  emoji : Option GetPostRespReactionEmoji
deriving Repr, DecidableEq

/-- The full read model (`GetPostResp`). -/
structure GetPostResp where
  id : Nat
  createdAt : Int
  replyId : Option Nat
  text : String
  title : Option String
  user : Option GetPostRespUser
  visibility : Visibility
  isSensitive : Bool
  uri : String
  files : List GetPostRespFile
  reactions : List GetPostRespReaction
deriving Repr, DecidableEq

/-- Insert an attachment row into a list sorted ascending by `order`
(model of SQL `ORDER BY "order" ASC`). -/
def insertByOrder (rf : RemoteFile) : List RemoteFile → List RemoteFile
  | [] => [rf]
  | x :: xs =>
    if rf.order ≤ x.order then rf :: x :: xs else x :: insertByOrder rf xs

/-- Sort attachment rows ascending by `order`
(`.order_by_asc(remote_file::Column::Order)`, post.rs line 199). -/
def sortByOrder : List RemoteFile → List RemoteFile
  | [] => []
  | x :: xs => insertByOrder x (sortByOrder xs)

/-- The attachment projection closure of post.rs lines 204-213: both
stored strings must parse, otherwise the whole attachment is filtered
out of the response. -/
def projectFile (env : Env) (file : RemoteFile) : Option GetPostRespFile :=
  match env.parseMime file.mediaType with
  | none => none
  | some mt =>
    match env.parseUrl file.url with
    | none => none
    | some u => some { mediaType := mt, url := u, alt := file.alt }

/-- The reaction projection closure of post.rs lines 221-243. When both
custom-emoji fields are present, each is parsed with `?` inside the
`filter_map` closure: a parse failure therefore drops the whole
reaction. When either field is absent the reaction is kept with
`emoji = none`. -/
def projectReaction (env : Env) (user : Option User) (r : Reaction) :
    Option GetPostRespReaction :=
  match r.emojiMediaType, r.emojiImageUrl with
  | some mediaType, some imageUrl =>
    match env.parseMime mediaType with
    | none => none
    | some mt =>
      match env.parseUrl imageUrl with
      | none => none
      | some iu =>
        some { user := user.map (fun u => { handle := u.handle, host := u.host })
               content := r.content
               emoji := some { mediaType := mt, imageUrl := iu } }
  | _, _ =>
    some { user := user.map (fun u => { handle := u.handle, host := u.host })
           content := r.content
           emoji := none }

/-- `find_also_related(user::Entity)`: each reaction of the post joined
with its (optional) owning user row. -/
def reactionsWithUsers (db : Db) (postId : Nat) : List (Reaction × Option User) :=
  (db.reactions.filter (fun r => r.postId == postId)).map
    (fun r => (r, r.userId.bind (fun uid => db.users.find? (fun u => u.id == uid))))

/-- `get_post` (post.rs lines 172-266): NotFound when the post is
missing; a present-but-dangling owner reference is an internal error; a
malformed stored URI is an internal error; attachments are fetched
ascending by stored order and projected leniently; reactions are
projected leniently. -/
def get_post (env : Env) (id : Nat) (db : Db) : Except Err GetPostResp :=
  match db.posts.find? (fun p => p.id == id) with
  | none => .error (.notFound "post not found")
  | some post =>
    let userResult : Except Err (Option GetPostRespUser) :=
      match post.userId with
      | none => .ok none
      | some uid =>
        match db.users.find? (fun u => u.id == uid) with
        | none => .error (.internal "user not found")
        | some u => .ok (some { handle := u.handle, host := u.host })
    match userResult with
    | .error e => .error e
    | .ok user =>
      let remoteFiles :=
        sortByOrder (db.remoteFiles.filter (fun rf => rf.postId == post.id))
      let files := remoteFiles.filterMap (projectFile env)
      let reactions :=
        (reactionsWithUsers db post.id).filterMap
          (fun ru => projectReaction env ru.2 ru.1)
      match env.parseUrl post.uri with
      | none => .error (.internal "malformed post URI")
      | some uri =>
        .ok { id := post.id
              createdAt := post.createdAt
              replyId := post.replyId
              text := post.text
              title := post.title
              user := user
              visibility := intoWire post.visibility
              isSensitive := post.isSensitive
              uri := uri
              files := files
              reactions := reactions }

/-- `delete_post` (post.rs lines 269-306): deleting a missing id is a
successful no-op; otherwise the row is deleted and committed, and only
then is the captured URI parsed (internal error on failure) and the
delete activity dispatched — both failures are reported even though the
deletion is already durable. -/
def delete_post (env : Env) (id : Nat) (db : Db) : Except Err Unit × Db :=
  match db.posts.find? (fun p => p.id == id) with
  | none => (.ok (), db)
  | some existing =>
    let db1 := { db with posts := db.posts.filter (fun p => !(p.id == id)) }
    match env.parseUrl existing.uri with
    | none => (.error (.internal "malformed post URI"), db1)
    | some uri =>
      match env.dispatchDelete uri with
      | .error e => (.error e, db1)
      | .ok _ => (.ok (), db1)

/-! ## Helper characterizations of the creation path -/

/-- The attachment rows a successful run of `attachFiles` appends, in
input order (empty past the first failing lookup). -/
def attSpec (lfs : List LocalFile) (postId : Nat) (idx : Nat) :
    List Nat → List RemoteFile
  | [] => []
  | fid :: rest =>
    match lfs.find? (fun lf => lf.id == fid) with
    | none => []
    | some f =>
      { postId := postId, order := idx % 256, mediaType := f.mediaType
        url := f.url, alt := f.alt } :: attSpec lfs postId (idx + 1) rest

theorem attachFiles_ok_fields (postId : Nat) (files : List Nat) :
    ∀ (idx : Nat) (db db' : Db), attachFiles postId files idx db = .ok db' →
      db'.posts = db.posts ∧ db'.localFiles = db.localFiles ∧
      db'.reactions = db.reactions ∧ db'.users = db.users ∧
      db'.remoteFiles = db.remoteFiles ++ attSpec db.localFiles postId idx files := by
  induction files with
  | nil =>
    intro idx db db' h
    simp only [attachFiles] at h
    cases h
    simp [attSpec]
  | cons fid rest ih =>
    intro idx db db' h
    simp only [attachFiles] at h
    cases hf : db.localFiles.find? (fun lf => lf.id == fid) with
    | none => rw [hf] at h; simp at h
    | some file =>
      rw [hf] at h
      simp only [LocalFile.attach_to_post] at h
      cases hc : db.remoteFiles.any
          (fun rf => rf.postId == postId && rf.order == idx % 256) with
      | true => rw [hc] at h; simp at h
      | false =>
        rw [hc] at h
        simp only [Bool.false_eq_true, if_false] at h
        obtain ⟨h1, h2, h3, h4, h5⟩ := ih (idx + 1) _ db' h
        refine ⟨h1, h2, h3, h4, ?_⟩
        rw [h5]
        simp only [attSpec, hf]
        simp [List.append_assoc]

theorem attachFiles_ok_get (postId : Nat) (files : List Nat) :
    ∀ (idx k : Nat) (db db' : Db) (fid : Nat),
      attachFiles postId files idx db = .ok db' →
      files[k]? = some fid →
      ∃ f, db.localFiles.find? (fun lf => lf.id == fid) = some f ∧
        (attSpec db.localFiles postId idx files)[k]? =
          some { postId := postId, order := (idx + k) % 256,
                 mediaType := f.mediaType, url := f.url, alt := f.alt } := by
  induction files with
  | nil => intro idx k db db' fid h hk; simp at hk
  | cons fid0 rest ih =>
    intro idx k db db' fid h hk
    simp only [attachFiles] at h
    cases hf : db.localFiles.find? (fun lf => lf.id == fid0) with
    | none => rw [hf] at h; simp at h
    | some file =>
      rw [hf] at h
      simp only [LocalFile.attach_to_post] at h
      cases hc : db.remoteFiles.any
          (fun rf => rf.postId == postId && rf.order == idx % 256) with
      | true => rw [hc] at h; simp at h
      | false =>
        rw [hc] at h
        simp only [Bool.false_eq_true, if_false] at h
        cases k with
        | zero =>
          simp only [List.getElem?_cons_zero, Option.some.injEq] at hk
          subst hk
          refine ⟨file, hf, ?_⟩
          simp [attSpec, hf]
        | succ k =>
          simp only [List.getElem?_cons_succ] at hk
          obtain ⟨f, hfind, hget⟩ := ih (idx + 1) k _ db' fid h hk
          refine ⟨f, hfind, ?_⟩
          simp only [attSpec, hf, List.getElem?_cons_succ]
          rw [hget]
          congr 2
          omega

theorem attachFiles_ok_length (postId : Nat) (files : List Nat) :
    ∀ (idx : Nat) (db db' : Db), attachFiles postId files idx db = .ok db' →
      (attSpec db.localFiles postId idx files).length = files.length := by
  induction files with
  | nil => intro idx db db' _; simp [attSpec]
  | cons fid rest ih =>
    intro idx db db' h
    simp only [attachFiles] at h
    cases hf : db.localFiles.find? (fun lf => lf.id == fid) with
    | none => rw [hf] at h; simp at h
    | some file =>
      rw [hf] at h
      simp only [LocalFile.attach_to_post] at h
      cases hc : db.remoteFiles.any
          (fun rf => rf.postId == postId && rf.order == idx % 256) with
      | true => rw [hc] at h; simp at h
      | false =>
        rw [hc] at h
        simp only [Bool.false_eq_true, if_false] at h
        have := ih (idx + 1) _ db' h
        simp only [attSpec, hf, List.length_cons]
        rw [this]

theorem attSpec_mem_postId (lfs : List LocalFile) (postId : Nat)
    (files : List Nat) : ∀ (idx : Nat) (rf : RemoteFile),
    rf ∈ attSpec lfs postId idx files → rf.postId = postId ∧ rf.order < 256 := by
  induction files with
  | nil => intro idx rf h; simp [attSpec] at h
  | cons fid rest ih =>
    intro idx rf h
    simp only [attSpec] at h
    cases hf : lfs.find? (fun lf => lf.id == fid) with
    | none => rw [hf] at h; simp at h
    | some f =>
      rw [hf] at h
      rcases List.mem_cons.mp h with h | h
      · subst h; exact ⟨rfl, Nat.mod_lt _ (by omega)⟩
      · exact ih (idx + 1) rf h

theorem attachFiles_ok_no_hit (postId : Nat) (files : List Nat) :
    ∀ (idx m : Nat) (db db' : Db),
      attachFiles postId files idx db = .ok db' →
      (∃ rf ∈ db.remoteFiles, rf.postId = postId ∧ rf.order = m) →
      ∀ k, k < files.length → (idx + k) % 256 ≠ m := by
  induction files with
  | nil => intro idx m db db' _ _ k hk; simp at hk
  | cons fid rest ih =>
    intro idx m db db' h hm k hk
    simp only [attachFiles] at h
    cases hf : db.localFiles.find? (fun lf => lf.id == fid) with
    | none => rw [hf] at h; simp at h
    | some file =>
      rw [hf] at h
      simp only [LocalFile.attach_to_post] at h
      cases hc : db.remoteFiles.any
          (fun rf => rf.postId == postId && rf.order == idx % 256) with
      | true => rw [hc] at h; simp at h
      | false =>
        rw [hc] at h
        simp only [Bool.false_eq_true, if_false] at h
        obtain ⟨rf, hrf, hrfp, hrfo⟩ := hm
        cases k with
        | zero =>
          intro heq
          have heq' : idx % 256 = m := by simpa using heq
          have : db.remoteFiles.any
              (fun x => x.postId == postId && x.order == idx % 256) = true :=
            List.any_eq_true.mpr ⟨rf, hrf, by simp [hrfp, hrfo, heq']⟩
          rw [this] at hc
          exact absurd hc (by simp)
        | succ k =>
          have hmem : rf ∈ ({ db with remoteFiles := db.remoteFiles ++
              [{ postId := postId, order := idx % 256, mediaType := file.mediaType
                 url := file.url, alt := file.alt }] } : Db).remoteFiles := by
            simp only [List.mem_append]
            exact Or.inl hrf
          have := ih (idx + 1) m _ db' h ⟨rf, hmem, hrfp, hrfo⟩ k
            (by simpa using Nat.lt_of_succ_lt_succ (by simpa using hk))
          intro heq
          exact this (by rw [← heq]; congr 1; omega)

theorem attachFiles_missing (postId : Nat) (files : List Nat) :
    ∀ (idx : Nat) (db : Db), idx + files.length ≤ 256 →
      (∀ rf ∈ db.remoteFiles, rf.postId = postId → rf.order < idx) →
      (∃ fid ∈ files, db.localFiles.find? (fun lf => lf.id == fid) = none) →
      attachFiles postId files idx db = .error (.notFound "file not found") := by
  induction files with
  | nil => intro idx db _ _ hmiss; simp at hmiss
  | cons fid rest ih =>
    intro idx db hlen hinv hmiss
    simp only [attachFiles]
    cases hf : db.localFiles.find? (fun lf => lf.id == fid) with
    | none => rfl
    | some file =>
      have hidx : idx < 256 := by simp only [List.length_cons] at hlen; omega
      have hc : db.remoteFiles.any
          (fun rf => rf.postId == postId && rf.order == idx % 256) = false := by
        refine List.any_eq_false.mpr ?_
        intro rf hrf
        by_cases hp : rf.postId = postId
        · have := hinv rf hrf hp
          have : rf.order ≠ idx % 256 := by omega
          simp [hp, this]
        · simp [hp]
      simp only [LocalFile.attach_to_post, hc, Bool.false_eq_true, if_false]
      apply ih (idx + 1)
      · simp only [List.length_cons] at hlen; omega
      · intro rf hrf hp
        simp only [List.mem_append, List.mem_singleton] at hrf
        rcases hrf with hrf | hrf
        · have := hinv rf hrf hp; omega
        · subst hrf
          show idx % 256 < idx + 1
          omega
      · obtain ⟨fid', hfid', hnone⟩ := hmiss
        rcases List.mem_cons.mp hfid' with h | h
        · subst h; rw [hf] at hnone; simp at hnone
        · exact ⟨fid', h, hnone⟩

theorem post_post_insert_ok (env : Env) (req : PostPostReq) (db : Db)
    (post : Post) (db' : Db) (h : post_post_insert env req db = .ok (post, db')) :
    post = newPost env req ∧
    (∀ q ∈ db.posts, q.id ≠ env.freshId) ∧
    db'.posts = db.posts ++ [newPost env req] ∧
    db'.localFiles = db.localFiles ∧
    db'.reactions = db.reactions ∧
    db'.users = db.users ∧
    db'.remoteFiles = db.remoteFiles ++
      attSpec db.localFiles env.freshId 0 req.files ∧
    attachFiles env.freshId req.files 0
      { db with posts := db.posts ++ [newPost env req] } = .ok db' := by
  simp only [post_post_insert, insertPost] at h
  cases hc : db.posts.any (fun q => q.id == (newPost env req).id) with
  | true => rw [hc] at h; simp at h
  | false =>
    rw [hc] at h
    simp only [Bool.false_eq_true, if_false] at h
    have hfresh : ∀ q ∈ db.posts, q.id ≠ env.freshId := by
      intro q hq
      have := List.any_eq_false.mp hc q hq
      simpa [newPost] using this
    cases hatt : attachFiles env.freshId req.files 0
        { db with posts := db.posts ++ [newPost env req] } with
    | error e => rw [hatt] at h; simp at h
    | ok db2 =>
      rw [hatt] at h
      simp only [Except.ok.injEq, Prod.mk.injEq] at h
      obtain ⟨hpost, hdb⟩ := h
      subst hdb
      obtain ⟨h1, h2, h3, h4, h5⟩ := attachFiles_ok_fields _ _ _ _ _ hatt
      exact ⟨hpost.symm, hfresh, h1, h2, h3, h4, h5, rfl⟩

theorem post_post_tx_none (env : Env) (req : PostPostReq) (db : Db)
    (hr : req.replyId = none) :
    post_post_tx env req db = post_post_insert env req db := by
  unfold post_post_tx
  rw [hr]

theorem post_post_tx_some (env : Env) (req : PostPostReq) (db : Db)
    (rid : Nat) (hr : req.replyId = some rid) :
    post_post_tx env req db =
      if (db.posts.filter (fun p => p.id == rid)).length == 0 then
        .error (.notFound "reply target post not found")
      else
        post_post_insert env req db := by
  unfold post_post_tx
  rw [hr]

theorem post_post_tx_ok (env : Env) (req : PostPostReq) (db : Db)
    (post : Post) (db' : Db) (h : post_post_tx env req db = .ok (post, db')) :
    post = newPost env req ∧
    (∀ q ∈ db.posts, q.id ≠ env.freshId) ∧
    db'.posts = db.posts ++ [newPost env req] ∧
    db'.localFiles = db.localFiles ∧
    db'.reactions = db.reactions ∧
    db'.users = db.users ∧
    db'.remoteFiles = db.remoteFiles ++
      attSpec db.localFiles env.freshId 0 req.files ∧
    attachFiles env.freshId req.files 0
      { db with posts := db.posts ++ [newPost env req] } = .ok db' := by
  cases hr : req.replyId with
  | none =>
    rw [post_post_tx_none env req db hr] at h
    exact post_post_insert_ok env req db post db' h
  | some rid =>
    rw [post_post_tx_some env req db rid hr] at h
    cases hcnt : ((db.posts.filter (fun p => p.id == rid)).length == 0) with
    | true => rw [hcnt] at h; simp at h
    | false =>
      rw [hcnt] at h
      simp only [Bool.false_eq_true, if_false] at h
      exact post_post_insert_ok env req db post db' h

theorem post_post_tx_ok_length (env : Env) (req : PostPostReq) (db : Db)
    (post : Post) (db' : Db) (h : post_post_tx env req db = .ok (post, db')) :
    req.files.length ≤ 256 := by
  obtain ⟨-, -, -, -, -, -, -, hatt⟩ := post_post_tx_ok env req db post db' h
  by_contra hlen
  push_neg at hlen
  cases hfs : req.files with
  | nil => rw [hfs] at hlen; simp at hlen
  | cons f0 rest =>
    rw [hfs] at hatt
    rw [hfs] at hlen
    simp only [List.length_cons] at hlen
    simp only [attachFiles] at hatt
    cases hf : List.find? (fun lf => lf.id == f0)
        ({ db with posts := db.posts ++ [newPost env req] } : Db).localFiles with
    | none => rw [hf] at hatt; simp at hatt
    | some file =>
      rw [hf] at hatt
      simp only [LocalFile.attach_to_post] at hatt
      cases hc : ({ db with posts := db.posts ++ [newPost env req] } : Db).remoteFiles.any
          (fun rf => rf.postId == env.freshId && rf.order == 0 % 256) with
      | true => rw [hc] at hatt; simp at hatt
      | false =>
        rw [hc] at hatt
        simp only [Bool.false_eq_true, if_false] at hatt
        have hhit := attachFiles_ok_no_hit env.freshId rest 1 0 _ db' hatt
          ⟨{ postId := env.freshId, order := 0 % 256, mediaType := file.mediaType
             url := file.url, alt := file.alt },
           by simp, rfl, by norm_num⟩ 255 (by omega)
        exact hhit (by norm_num)

theorem post_post_eq_error (env : Env) (req : PostPostReq) (db : Db) (e : Err)
    (h : post_post_tx env req db = .error e) :
    post_post env req db = (.error e, db) := by
  unfold post_post
  rw [h]

theorem post_post_eq_ok (env : Env) (req : PostPostReq) (db : Db)
    (post : Post) (db1 : Db) (h : post_post_tx env req db = .ok (post, db1)) :
    post_post env req db =
      match env.dispatchCreate post with
      | .error e => (.error e, db1)
      | .ok _ => (.ok post.id, db1) := by
  unfold post_post
  rw [h]

theorem post_post_ok (env : Env) (req : PostPostReq) (db : Db)
    (pid : Nat) (db' : Db) (h : post_post env req db = (.ok pid, db')) :
    pid = env.freshId ∧ post_post_tx env req db = .ok (newPost env req, db') := by
  cases htx : post_post_tx env req db with
  | error e => rw [post_post_eq_error env req db e htx] at h; simp at h
  | ok pd =>
    obtain ⟨post, db2⟩ := pd
    rw [post_post_eq_ok env req db post db2 htx] at h
    cases hd : env.dispatchCreate post with
    | error e => rw [hd] at h; simp at h
    | ok u =>
      rw [hd] at h
      simp only [Prod.mk.injEq, Except.ok.injEq] at h
      obtain ⟨hid, hdb⟩ := h
      have hpost := (post_post_tx_ok env req db post db2 htx).1
      subst hdb
      subst hpost
      exact ⟨hid.symm ▸ rfl, rfl⟩

/-! ## Helper characterizations of the read and delete paths -/

theorem sortByOrder_eq_self (l : List RemoteFile)
    (h : l.Chain' (fun a b => a.order ≤ b.order)) : sortByOrder l = l := by
  induction l with
  | nil => rfl
  | cons x xs ih =>
    obtain ⟨hhead, htail⟩ := List.chain'_cons'.mp h
    rw [sortByOrder, ih htail]
    cases xs with
    | nil => rfl
    | cons y ys =>
      rw [insertByOrder, if_pos (hhead y rfl)]

theorem mem_insertByOrder (rf a : RemoteFile) (l : List RemoteFile) :
    a ∈ insertByOrder rf l ↔ a = rf ∨ a ∈ l := by
  induction l with
  | nil => simp [insertByOrder]
  | cons x xs ih =>
    rw [insertByOrder]
    by_cases hle : rf.order ≤ x.order
    · rw [if_pos hle]; simp
    · rw [if_neg hle]
      simp only [List.mem_cons, ih]
      tauto

theorem mem_sortByOrder (a : RemoteFile) (l : List RemoteFile) :
    a ∈ sortByOrder l ↔ a ∈ l := by
  induction l with
  | nil => simp [sortByOrder]
  | cons x xs ih =>
    rw [sortByOrder, mem_insertByOrder]
    simp [ih]

theorem length_insertByOrder (rf : RemoteFile) (l : List RemoteFile) :
    (insertByOrder rf l).length = l.length + 1 := by
  induction l with
  | nil => rfl
  | cons x xs ih =>
    rw [insertByOrder]
    by_cases hle : rf.order ≤ x.order
    · rw [if_pos hle]; simp
    · rw [if_neg hle]; simp [ih]

theorem length_sortByOrder (l : List RemoteFile) :
    (sortByOrder l).length = l.length := by
  induction l with
  | nil => rfl
  | cons x xs ih => rw [sortByOrder, length_insertByOrder, ih, List.length_cons]

theorem get_post_eq_none (env : Env) (id : Nat) (db : Db)
    (h : db.posts.find? (fun p => p.id == id) = none) :
    get_post env id db = .error (.notFound "post not found") := by
  unfold get_post
  rw [h]

theorem get_post_eq_some (env : Env) (id : Nat) (db : Db) (post : Post)
    (h : db.posts.find? (fun p => p.id == id) = some post)
    (hu : post.userId = none) :
    get_post env id db =
      match env.parseUrl post.uri with
      | none => .error (.internal "malformed post URI")
      | some uri =>
        .ok { id := post.id
              createdAt := post.createdAt
              replyId := post.replyId
              text := post.text
              title := post.title
              user := none
              visibility := intoWire post.visibility
              isSensitive := post.isSensitive
              uri := uri
              files := (sortByOrder (db.remoteFiles.filter
                  (fun rf => rf.postId == post.id))).filterMap (projectFile env)
              reactions := (reactionsWithUsers db post.id).filterMap
                  (fun ru => projectReaction env ru.2 ru.1) } := by
  unfold get_post
  rw [h]
  simp only [hu]

theorem delete_post_eq_none (env : Env) (id : Nat) (db : Db)
    (h : db.posts.find? (fun p => p.id == id) = none) :
    delete_post env id db = (.ok (), db) := by
  unfold delete_post
  rw [h]

theorem delete_post_eq_some (env : Env) (id : Nat) (db : Db) (existing : Post)
    (h : db.posts.find? (fun p => p.id == id) = some existing) :
    delete_post env id db =
      match env.parseUrl existing.uri with
      | none => (.error (.internal "malformed post URI"),
          { db with posts := db.posts.filter (fun p => !(p.id == id)) })
      | some uri =>
        match env.dispatchDelete uri with
        | .error e => (.error e,
            { db with posts := db.posts.filter (fun p => !(p.id == id)) })
        | .ok _ => (.ok (),
            { db with posts := db.posts.filter (fun p => !(p.id == id)) }) := by
  unfold delete_post
  rw [h]

theorem find?_append_new (l : List Post) (p : Post)
    (h : ∀ q ∈ l, q.id ≠ p.id) :
    (l ++ [p]).find? (fun q => q.id == p.id) = some p := by
  rw [List.find?_append]
  have hnone : l.find? (fun q => q.id == p.id) = none :=
    List.find?_eq_none.mpr (by intro x hx; simpa using h x hx)
  rw [hnone]
  simp

theorem filterMap_all_some {α β : Type} (f : α → Option β) (l : List α)
    (h : ∀ a ∈ l, (f a).isSome) :
    (l.filterMap f).length = l.length ∧
    ∀ (k : Nat) (a : α), l[k]? = some a →
      ∃ b, f a = some b ∧ (l.filterMap f)[k]? = some b := by
  induction l with
  | nil => simp
  | cons x xs ih =>
    have hx : (f x).isSome := h x (by simp)
    obtain ⟨bx, hbx⟩ := Option.isSome_iff_exists.mp hx
    have hxs : ∀ a ∈ xs, (f a).isSome := fun a ha => h a (by simp [ha])
    obtain ⟨ihlen, ihget⟩ := ih hxs
    rw [List.filterMap_cons, hbx]
    refine ⟨by simp [ihlen], ?_⟩
    intro k a hk
    cases k with
    | zero =>
      simp only [List.getElem?_cons_zero, Option.some.injEq] at hk
      subst hk
      exact ⟨bx, hbx, by simp⟩
    | succ k =>
      simp only [List.getElem?_cons_succ] at hk
      obtain ⟨b, hb, hget⟩ := ihget k a hk
      exact ⟨b, hb, by simpa using hget⟩

theorem filterMap_length_lt {α β : Type} (f : α → Option β) (l : List α)
    (a : α) (ha : a ∈ l) (hf : f a = none) :
    (l.filterMap f).length < l.length := by
  induction l with
  | nil => simp at ha
  | cons x xs ih =>
    rcases List.mem_cons.mp ha with h | h
    · subst h
      rw [List.filterMap_cons, hf]
      exact Nat.lt_succ_of_le (List.length_filterMap_le f xs)
    · rw [List.filterMap_cons]
      cases hfx : f x with
      | none => exact Nat.lt_succ_of_lt (ih h)
      | some b => simpa using Nat.succ_lt_succ (ih h)

theorem post_post_result_posts (env : Env) (req : PostPostReq) (db : Db) :
    (post_post env req db).2.posts = db.posts ∨
    (post_post env req db).2.posts = db.posts ++ [newPost env req] := by
  cases htx : post_post_tx env req db with
  | error e => rw [post_post_eq_error env req db e htx]; left; rfl
  | ok pd =>
    obtain ⟨post, db2⟩ := pd
    rw [post_post_eq_ok env req db post db2 htx]
    have h3 := (post_post_tx_ok env req db post db2 htx).2.2.1
    cases hd : env.dispatchCreate post with
    | error e => simp only [hd]; right; exact h3
    | ok u => simp only [hd]; right; exact h3

theorem delete_post_result_posts (env : Env) (id : Nat) (db : Db) :
    (delete_post env id db).2.posts = db.posts ∨
    (delete_post env id db).2.posts = db.posts.filter (fun p => !(p.id == id)) := by
  cases hf : db.posts.find? (fun p => p.id == id) with
  | none => rw [delete_post_eq_none env id db hf]; left; rfl
  | some existing =>
    rw [delete_post_eq_some env id db existing hf]
    cases hu : env.parseUrl existing.uri with
    | none => simp only [hu]; right; trivial
    | some uri =>
      simp only [hu]
      cases hd : env.dispatchDelete uri with
      | error e => simp only [hd]; right; trivial
      | ok u => simp only [hd]; right; trivial

/-! ## Concrete witness material -/

/-- Concrete environment for the witnesses: both parsers fail exactly on
the string "bad", both dispatches succeed. -/
def envW : Env :=
  { domain := "example.com"
    freshId := 1
    now := 0
    parseMime := fun s => if s = "bad" then none else some s
    parseUrl := fun s => if s = "bad" then none else some s
    dispatchCreate := fun _ => .ok ()
    dispatchDelete := fun _ => .ok () }

/-- Environment whose create dispatch fails. -/
def envWD : Env :=
  { domain := "example.com"
    freshId := 1
    now := 0
    parseMime := fun s => if s = "bad" then none else some s
    parseUrl := fun s => if s = "bad" then none else some s
    dispatchCreate := fun _ => .error (.internal "dispatch failed")
    dispatchDelete := fun _ => .ok () }

/-- The empty store. -/
def dbEmpty : Db :=
  { posts := [], localFiles := [], remoteFiles := [], reactions := [], users := [] }

/-- A creation request with an unknown reply target. -/
def reqW4 : PostPostReq :=
  { replyId := some 5, text := "hello", title := none, visibility := .public
    isSensitive := false, files := [] }

/-- A plain creation request without files. -/
def reqW5 : PostPostReq :=
  { replyId := none, text := "hello", title := none, visibility := .home
    isSensitive := false, files := [] }

/-- The post row `post_post envW reqW5 dbEmpty` persists. -/
def postW5 : Post :=
  { id := 1, createdAt := 0, replyId := none, text := "hello", title := none
    userId := none, visibility := .home, isSensitive := false
    uri := "https://example.com/ap/post/1" }

/-- The store after `post_post envW reqW5 dbEmpty`. -/
def dbW5 : Db :=
  { posts := [postW5], localFiles := [], remoteFiles := [], reactions := []
    users := [] }

/-- A pre-existing post row with id 1. -/
def postW1 : Post :=
  { id := 1, createdAt := 0, replyId := none, text := "hello", title := none
    userId := none, visibility := .public, isSensitive := false
    uri := "https://example.com/ap/post/1" }

/-- A store holding exactly the post `postW1`. -/
def dbW7 : Db :=
  { posts := [postW1], localFiles := [], remoteFiles := [], reactions := []
    users := [] }

/-! ## Claim theorems -/

/-- C4: a creation request carrying a reply-target id for which no post
exists fails with NotFound and leaves the store unchanged, so no new
post is persisted. -/
theorem create_missing_reply_target_not_found (env : Env) (req : PostPostReq)
    (db : Db) (rid : Nat) (hr : req.replyId = some rid)
    (hmiss : ∀ p ∈ db.posts, p.id ≠ rid) :
    post_post env req db =
      (.error (.notFound "reply target post not found"), db) := by
  have hnil : db.posts.filter (fun p => p.id == rid) = [] :=
    List.filter_eq_nil_iff.mpr (by intro a ha; simpa using hmiss a ha)
  have hcnt : ((db.posts.filter (fun p => p.id == rid)).length == 0) = true := by
    simp [hnil]
  have htx : post_post_tx env req db =
      .error (.notFound "reply target post not found") := by
    rw [post_post_tx_some env req db rid hr, if_pos hcnt]
  exact post_post_eq_error env req db _ htx

/-- C4 witness: a concrete creation with `replyId = 5` against the empty
store fails with NotFound and persists nothing. -/
theorem create_missing_reply_target_not_found_witness :
    post_post envW reqW4 dbEmpty =
      (.error (.notFound "reply target post not found"), dbEmpty) :=
  create_missing_reply_target_not_found envW reqW4 dbEmpty 5 rfl
    (by intro p hp; simp [dbEmpty] at hp)

/-- C5: the visibility mapping between the wire and storage vocabularies
is total (a Lean function) and bijective, the two directions are mutually
inverse, and reading a post returns exactly the visibility supplied at
its creation. -/
theorem visibility_round_trip :
    (∀ v, intoWire (intoStorage v) = v) ∧
    (∀ s, intoStorage (intoWire s) = s) ∧
    Function.Bijective intoStorage ∧
    Function.Bijective intoWire ∧
    (∀ (env : Env) (req : PostPostReq) (db db' : Db) (pid : Nat)
      (resp : GetPostResp), post_post env req db = (.ok pid, db') →
      get_post env pid db' = .ok resp → resp.visibility = req.visibility) := by
  have h1 : ∀ v, intoWire (intoStorage v) = v := by intro v; cases v <;> rfl
  have h2 : ∀ s, intoStorage (intoWire s) = s := by intro s; cases s <;> rfl
  refine ⟨h1, h2, Function.bijective_iff_has_inverse.mpr ⟨intoWire, h1, h2⟩,
    Function.bijective_iff_has_inverse.mpr ⟨intoStorage, h2, h1⟩, ?_⟩
  intro env req db db' pid resp hok hget
  obtain ⟨hpid, htx⟩ := post_post_ok env req db pid db' hok
  subst hpid
  obtain ⟨-, hfresh, hposts, -, -, -, -, -⟩ :=
    post_post_tx_ok env req db _ db' htx
  have hfind : db'.posts.find? (fun p => p.id == env.freshId) =
      some (newPost env req) := by
    rw [hposts]
    exact find?_append_new db.posts (newPost env req) hfresh
  rw [get_post_eq_some env env.freshId db' (newPost env req) hfind rfl] at hget
  cases hup : env.parseUrl (newPost env req).uri with
  | none =>
    simp only [hup] at hget
    exact absurd hget (by simp)
  | some u =>
    simp only [hup, Except.ok.injEq] at hget
    rw [← hget]
    exact h1 req.visibility

/-- C5 witness: creating with visibility `home` then reading returns
visibility `home`. -/
theorem visibility_round_trip_witness :
    (get_post envW 1 dbW5 =
      .ok { id := 1, createdAt := 0, replyId := none, text := "hello"
            title := none, user := none, visibility := .home
            isSensitive := false, uri := "https://example.com/ap/post/1"
            files := [], reactions := [] }) ∧
    ({ id := 1, createdAt := 0, replyId := none, text := "hello"
       title := none, user := none, visibility := .home
       isSensitive := false, uri := "https://example.com/ap/post/1"
       files := [], reactions := [] } : GetPostResp).visibility = .home :=
  ⟨rfl, visibility_round_trip.2.2.2.2 envW reqW5 dbEmpty dbW5 1 _ rfl rfl⟩

/-- C7: deleting an id with no post succeeds and changes no state; after
a successful deletion, reading the same id yields NotFound. -/
theorem delete_idempotent_then_read_not_found (env : Env) (id : Nat)
    (db db' : Db) :
    (db.posts.find? (fun p => p.id == id) = none →
      delete_post env id db = (.ok (), db)) ∧
    (delete_post env id db = (.ok (), db') →
      get_post env id db' = .error (.notFound "post not found")) := by
  constructor
  · intro h
    exact delete_post_eq_none env id db h
  · intro h
    cases hf : db.posts.find? (fun p => p.id == id) with
    | none =>
      rw [delete_post_eq_none env id db hf] at h
      have hdb : db = db' := by simpa using h
      subst hdb
      exact get_post_eq_none env id db hf
    | some existing =>
      rw [delete_post_eq_some env id db existing hf] at h
      cases hu : env.parseUrl existing.uri with
      | none => simp only [hu] at h; simp at h
      | some uri =>
        simp only [hu] at h
        cases hd : env.dispatchDelete uri with
        | error e => simp only [hd] at h; simp at h
        | ok u =>
          simp only [hd] at h
          have hdb :
              ({ db with posts := db.posts.filter (fun p => !(p.id == id)) } :
                Db) = db' := by
            simpa using h
          subst hdb
          apply get_post_eq_none
          refine List.find?_eq_none.mpr ?_
          intro x hx
          have hm := List.mem_filter.mp hx
          simpa using hm.2

/-- C7 witness: deleting unknown id 2 is a no-op; deleting existing id 1
then reading id 1 yields NotFound. -/
theorem delete_idempotent_then_read_not_found_witness :
    delete_post envW 2 dbW7 = (.ok (), dbW7) ∧
    get_post envW 1 dbEmpty = .error (.notFound "post not found") :=
  ⟨(delete_idempotent_then_read_not_found envW 2 dbW7 dbW7).1 rfl,
   (delete_idempotent_then_read_not_found envW 1 dbW7 dbEmpty).2 rfl⟩

/-- C8: if the transactional part committed and the create-activity
dispatch fails, the whole `post_post` reports the dispatch failure while
the created post is already persisted in the returned state (the
dispatch runs only on the committed state). -/
theorem dispatch_failure_after_commit (env : Env) (req : PostPostReq)
    (db : Db) (post : Post) (db' : Db) (e : Err)
    (htx : post_post_tx env req db = .ok (post, db'))
    (hd : env.dispatchCreate post = .error e) :
    post_post env req db = (.error e, db') ∧ post ∈ db'.posts := by
  obtain ⟨hpost, -, hposts, -⟩ := post_post_tx_ok env req db post db' htx
  constructor
  · rw [post_post_eq_ok env req db post db' htx, hd]
  · rw [hposts, hpost]
    exact List.mem_append_right _ (by simp)

/-- C8 witness: a concrete creation whose dispatch fails returns the
dispatch error while the post row is in the returned state. -/
theorem dispatch_failure_after_commit_witness :
    post_post envWD reqW5 dbEmpty = (.error (.internal "dispatch failed"), dbW5) ∧
    newPost envWD reqW5 ∈ dbW5.posts :=
  dispatch_failure_after_commit envWD reqW5 dbEmpty (newPost envWD reqW5) dbW5
    (.internal "dispatch failed") rfl rfl

/-- C9: a successful creation appends exactly one post row whose stored
URI is the string `https://{domain}/ap/post/{id}` for the fresh id, and
no operation ever modifies an existing post row afterwards: a later
creation preserves every present row and a later deletion only removes
rows, so the stored URI is immutable. -/
theorem canonical_uri_at_creation (env : Env) (req : PostPostReq)
    (db db' : Db) (pid : Nat) (hok : post_post env req db = (.ok pid, db')) :
    (∃ post, db'.posts = db.posts ++ [post] ∧ post.id = pid ∧
      post.uri = "https://" ++ env.domain ++ "/ap/post/" ++ toString pid) ∧
    (∀ (env2 : Env) (req2 : PostPostReq), ∀ p ∈ db'.posts,
      p ∈ (post_post env2 req2 db').2.posts) ∧
    (∀ (env2 : Env) (id2 : Nat), ∀ p ∈ (delete_post env2 id2 db').2.posts,
      p ∈ db'.posts) := by
  obtain ⟨hpid, htx⟩ := post_post_ok env req db pid db' hok
  subst hpid
  obtain ⟨-, -, hposts, -⟩ := post_post_tx_ok env req db _ db' htx
  refine ⟨⟨newPost env req, hposts, rfl, rfl⟩, ?_, ?_⟩
  · intro env2 req2 p hp
    rcases post_post_result_posts env2 req2 db' with h | h
    · rw [h]; exact hp
    · rw [h]; exact List.mem_append_left _ hp
  · intro env2 id2 p hp
    rcases delete_post_result_posts env2 id2 db' with h | h
    · rw [h] at hp; exact hp
    · rw [h] at hp; exact (List.mem_filter.mp hp).1

/-- C9 witness: the concrete creation stores URI
`https://example.com/ap/post/1`. -/
theorem canonical_uri_at_creation_witness :
    ∃ post, dbW5.posts = dbEmpty.posts ++ [post] ∧ post.id = 1 ∧
      post.uri = "https://" ++ envW.domain ++ "/ap/post/" ++ toString 1 :=
  (canonical_uri_at_creation envW reqW5 dbEmpty dbW5 1 rfl).1

/-- A creation request with one file id (7) that has no stored file. -/
def reqW3 : PostPostReq :=
  { replyId := none, text := "hello", title := none, visibility := .public
    isSensitive := false, files := [7] }

/-- A creation request with more files (257) than order positions. -/
def reqW6 : PostPostReq :=
  { replyId := none, text := "hello", title := none, visibility := .public
    isSensitive := false, files := List.range 257 }

/-- C3: a creation request (within the ≤ 256 file bound of the input
contract) containing a file id with no stored file fails with NotFound,
and the store is returned unchanged: neither the post row nor any
attachment association of an earlier position survives. -/
theorem create_missing_file_not_found_rollback (env : Env)
    (req : PostPostReq) (db : Db)
    (hfreshp : ∀ q ∈ db.posts, q.id ≠ env.freshId)
    (hfresha : ∀ rf ∈ db.remoteFiles, rf.postId ≠ env.freshId)
    (hlen : req.files.length ≤ 256)
    (hmiss : ∃ fid ∈ req.files,
      db.localFiles.find? (fun lf => lf.id == fid) = none) :
    ∃ msg, post_post env req db = (.error (.notFound msg), db) := by
  have hany : db.posts.any (fun q => q.id == (newPost env req).id) = false := by
    refine List.any_eq_false.mpr ?_
    intro q hq
    simpa [newPost] using hfreshp q hq
  have hinsert : insertPost (newPost env req) db =
      .ok { db with posts := db.posts ++ [newPost env req] } := by
    simp only [insertPost, hany, Bool.false_eq_true, if_false]
  have hatt : attachFiles env.freshId req.files 0
      { db with posts := db.posts ++ [newPost env req] } =
      .error (.notFound "file not found") := by
    apply attachFiles_missing
    · simpa using hlen
    · intro rf hrf hp
      exact absurd hp (hfresha rf hrf)
    · exact hmiss
  have hins : post_post_insert env req db =
      .error (.notFound "file not found") := by
    simp only [post_post_insert, hinsert, hatt]
  cases hr : req.replyId with
  | none =>
    refine ⟨"file not found", ?_⟩
    apply post_post_eq_error
    rw [post_post_tx_none env req db hr, hins]
  | some rid =>
    cases hcnt : ((db.posts.filter (fun p => p.id == rid)).length == 0) with
    | true =>
      refine ⟨"reply target post not found", ?_⟩
      apply post_post_eq_error
      rw [post_post_tx_some env req db rid hr, if_pos hcnt]
    | false =>
      refine ⟨"file not found", ?_⟩
      apply post_post_eq_error
      rw [post_post_tx_some env req db rid hr, if_neg (by simp [hcnt]), hins]

/-- C3 witness: a concrete creation with the missing file id 7 fails
with NotFound and persists nothing. -/
theorem create_missing_file_not_found_rollback_witness :
    ∃ msg, post_post envW reqW3 dbEmpty = (.error (.notFound msg), dbEmpty) :=
  create_missing_file_not_found_rollback envW reqW3 dbEmpty
    (by intro q hq; simp [dbEmpty] at hq)
    (by intro rf hrf; simp [dbEmpty] at hrf)
    (by simp [reqW3])
    ⟨7, by simp [reqW3], rfl⟩

/-- C6: every attachment row a creation stores carries an order value
below 256 (at most 256 distinct positions), and a creation whose file
list exceeds 256 entries fails as a constraint violation with the store
unchanged, rather than persisting attachments with wrapped or duplicated
order values. -/
theorem attachment_order_bounded (env : Env) (req : PostPostReq) (db : Db) :
    (∀ (db' : Db) (pid : Nat), post_post env req db = (.ok pid, db') →
      ∀ rf ∈ db'.remoteFiles, rf ∈ db.remoteFiles ∨ rf.order < 256) ∧
    (req.files.length > 256 →
      ∃ e, post_post env req db = (.error e, db)) := by
  constructor
  · intro db' pid hok rf hrf
    obtain ⟨hpid, htx⟩ := post_post_ok env req db pid db' hok
    obtain ⟨-, -, -, -, -, -, hrfs, -⟩ := post_post_tx_ok env req db _ db' htx
    rw [hrfs] at hrf
    rcases List.mem_append.mp hrf with h | h
    · exact Or.inl h
    · exact Or.inr (attSpec_mem_postId _ _ _ _ rf h).2
  · intro hlen
    cases htx : post_post_tx env req db with
    | error e => exact ⟨e, post_post_eq_error env req db e htx⟩
    | ok pd =>
      obtain ⟨post, db2⟩ := pd
      have := post_post_tx_ok_length env req db post db2 htx
      exact absurd this (by omega)

/-- C6 witness: the successful concrete creation stores only orders
below 256, and a concrete creation with 257 files fails with the store
unchanged. -/
theorem attachment_order_bounded_witness :
    (∀ rf ∈ dbW5.remoteFiles, rf ∈ dbEmpty.remoteFiles ∨ rf.order < 256) ∧
    (∃ e, post_post envW reqW6 dbEmpty = (.error e, dbEmpty)) :=
  ⟨(attachment_order_bounded envW reqW5 dbEmpty).1 dbW5 1 rfl,
   (attachment_order_bounded envW reqW6 dbEmpty).2 (by simp [reqW6])⟩

/-- A store with one post and one reaction whose custom-emoji descriptor
has both fields present, but whose media type ("bad") fails to parse
under `envW`. -/
def dbW2 : Db :=
  { posts := [postW1], localFiles := [], remoteFiles := []
    reactions := [{ postId := 1, userId := none, content := "smile"
                    emojiMediaType := some "bad"
                    emojiImageUrl := some "https://i" }]
    users := [] }

/-- A reaction whose custom-emoji descriptor has only its image URL
populated. -/
def rW2 : Reaction :=
  { postId := 1, userId := none, content := "smilefallback"
    emojiMediaType := none, emojiImageUrl := some "https://i" }

/-- C2 counterexample: the store `dbW2` holds one reaction whose two
custom-emoji fields are both present but whose media type fails to
parse; the claim says the reaction is included in the response with its
emoji absent, yet `get_post` succeeds with an empty reactions list — the
reaction is dropped entirely. -/
theorem reaction_parse_failure_drops_reaction :
    dbW2.reactions.length = 1 ∧
    get_post envW 1 dbW2 =
      .ok { id := 1, createdAt := 0, replyId := none, text := "hello"
            title := none, user := none, visibility := .public
            isSensitive := false, uri := "https://example.com/ap/post/1"
            files := [], reactions := [] } :=
  ⟨rfl, rfl⟩

/-- C2 amended: when a reaction's custom-emoji descriptor has either
field absent, the reaction is returned with `emoji` absent; when both
fields are present but either fails to parse, that reaction is omitted
from the response; in both cases the read itself still succeeds and
never fails because of the emoji fields. -/
theorem reaction_emoji_leniency_amended (env : Env) (id : Nat) (db : Db)
    (post : Post) (u : String)
    (hfind : db.posts.find? (fun p => p.id == id) = some post)
    (huser : post.userId = none)
    (hup : env.parseUrl post.uri = some u) :
    (∃ resp, get_post env id db = .ok resp ∧
      resp.reactions = (reactionsWithUsers db post.id).filterMap
        (fun ru => projectReaction env ru.2 ru.1)) ∧
    (∀ (uo : Option User) (r : Reaction),
      r.emojiMediaType = none ∨ r.emojiImageUrl = none →
      projectReaction env uo r =
        some { user := uo.map (fun us => { handle := us.handle, host := us.host })
               content := r.content, emoji := none }) ∧
    (∀ (uo : Option User) (r : Reaction) (mt iu : String),
      r.emojiMediaType = some mt → r.emojiImageUrl = some iu →
      env.parseMime mt = none ∨ env.parseUrl iu = none →
      projectReaction env uo r = none) := by
  refine ⟨?_, ?_, ?_⟩
  · rw [get_post_eq_some env id db post hfind huser]
    simp only [hup]
    exact ⟨_, rfl, rfl⟩
  · intro uo r hr
    rcases hr with hr | hr
    · simp only [projectReaction, hr]
    · cases hmt : r.emojiMediaType with
      | none => simp only [projectReaction, hmt]
      | some mt => simp only [projectReaction, hmt, hr]
  · intro uo r mt iu hmt hiu hbad
    rcases hbad with hb | hb
    · simp only [projectReaction, hmt, hiu, hb]
    · cases hpm : env.parseMime mt with
      | none => simp only [projectReaction, hmt, hiu, hpm]
      | some m => simp only [projectReaction, hmt, hiu, hpm, hb]

/-- C2 amended witness: a concrete reaction whose media-type field is
absent projects to an entry with `emoji` absent. -/
theorem reaction_emoji_leniency_amended_witness :
    projectReaction envW none rW2 =
      some { user := none, content := "smilefallback", emoji := none } :=
  (reaction_emoji_leniency_amended envW 1 dbW2 postW1
    "https://example.com/ap/post/1" rfl rfl rfl).2.1 none rW2 (Or.inl rfl)

/-- An attachment row of post 1 whose stored media type ("bad") fails to
parse under `envW`. -/
def rfW10 : RemoteFile :=
  { postId := 1, order := 0, mediaType := "bad", url := "https://f"
    alt := none }

/-- A store with one post and the unparseable attachment `rfW10`. -/
def dbW10 : Db :=
  { posts := [postW1], localFiles := [], remoteFiles := [rfW10]
    reactions := [], users := [] }

/-- C10: an attachment row whose stored media type or stored URL fails
to parse is silently omitted from the returned files list; the read
still succeeds, and the returned files list is strictly shorter than the
number of stored attachments of the post. -/
theorem attachment_parse_failure_omitted (env : Env) (id : Nat) (db : Db)
    (post : Post) (u : String) (rf : RemoteFile)
    (hfind : db.posts.find? (fun p => p.id == id) = some post)
    (huser : post.userId = none)
    (hup : env.parseUrl post.uri = some u)
    (hrf : rf ∈ db.remoteFiles) (hpid : rf.postId = post.id)
    (hbad : env.parseMime rf.mediaType = none ∨ env.parseUrl rf.url = none) :
    ∃ resp, get_post env id db = .ok resp ∧
      projectFile env rf = none ∧
      resp.files.length <
        (db.remoteFiles.filter (fun x => x.postId == post.id)).length := by
  have hpf : projectFile env rf = none := by
    rcases hbad with hb | hb
    · simp only [projectFile, hb]
    · cases hpm : env.parseMime rf.mediaType with
      | none => simp only [projectFile, hpm]
      | some mt => simp only [projectFile, hpm, hb]
  rw [get_post_eq_some env id db post hfind huser]
  simp only [hup]
  refine ⟨_, rfl, hpf, ?_⟩
  have hmem : rf ∈ sortByOrder
      (db.remoteFiles.filter (fun x => x.postId == post.id)) := by
    rw [mem_sortByOrder]
    exact List.mem_filter.mpr ⟨hrf, by simp [hpid]⟩
  have hlt := filterMap_length_lt (projectFile env) _ rf hmem hpf
  rw [length_sortByOrder] at hlt
  exact hlt

/-- C10 witness: the concrete store `dbW10` holds one attachment whose
media type fails to parse; the read succeeds and returns zero files. -/
theorem attachment_parse_failure_omitted_witness :
    ∃ resp, get_post envW 1 dbW10 = .ok resp ∧
      projectFile envW rfW10 = none ∧
      resp.files.length <
        (dbW10.remoteFiles.filter (fun x => x.postId == postW1.id)).length :=
  attachment_parse_failure_omitted envW 1 dbW10 postW1
    "https://example.com/ap/post/1" rfW10 rfl rfl rfl
    (by simp [dbW10]) rfl (Or.inl rfl)

theorem attSpec_mem_fields (lfs : List LocalFile) (postId : Nat)
    (files : List Nat) : ∀ (idx : Nat) (rf : RemoteFile),
    rf ∈ attSpec lfs postId idx files →
    ∃ f ∈ lfs, rf.mediaType = f.mediaType ∧ rf.url = f.url := by
  induction files with
  | nil => intro idx rf h; simp [attSpec] at h
  | cons fid rest ih =>
    intro idx rf h
    simp only [attSpec] at h
    cases hf : lfs.find? (fun lf => lf.id == fid) with
    | none => rw [hf] at h; simp at h
    | some f =>
      rw [hf] at h
      rcases List.mem_cons.mp h with h | h
      · subst h
        exact ⟨f, List.mem_of_find?_eq_some hf, rfl, rfl⟩
      · exact ih (idx + 1) rf h

/-- C1: after every successful creation with file list `req.files` — in
a store holding no attachment rows for the fresh id, whose stored file
fields all parse, and whose configured-URI parses — reading the created
post succeeds, the post's stored attachments sorted ascending by order
are exactly as many as the request's files, the k-th of them carries
stored order k (its zero-based position in the request's file list) and
the fields of the file looked up at position k, and the response lists
their projections in the same order. -/
theorem post_create_read_attachment_order (env : Env) (req : PostPostReq)
    (db db' : Db) (pid : Nat) (u : String)
    (hfresh : ∀ rf ∈ db.remoteFiles, rf.postId ≠ env.freshId)
    (hok : post_post env req db = (.ok pid, db'))
    (hup : env.parseUrl (newPost env req).uri = some u)
    (hparse : ∀ f ∈ db.localFiles,
      (env.parseMime f.mediaType).isSome ∧ (env.parseUrl f.url).isSome) :
    ∃ resp, get_post env pid db' = .ok resp ∧
      (sortByOrder (db'.remoteFiles.filter
        (fun rf => rf.postId == pid))).length = req.files.length ∧
      resp.files.length = req.files.length ∧
      (∀ (k : Nat) (fid : Nat), req.files[k]? = some fid →
        ∃ f a pf,
          db.localFiles.find? (fun lf => lf.id == fid) = some f ∧
          (sortByOrder (db'.remoteFiles.filter
            (fun rf => rf.postId == pid)))[k]? = some a ∧
          a.order = k ∧ a.mediaType = f.mediaType ∧ a.url = f.url ∧
          a.alt = f.alt ∧
          resp.files[k]? = some pf ∧
          env.parseMime f.mediaType = some pf.mediaType ∧
          env.parseUrl f.url = some pf.url ∧ pf.alt = f.alt) := by
  obtain ⟨hpid, htx⟩ := post_post_ok env req db pid db' hok
  subst hpid
  obtain ⟨-, hfreshq, hposts, -, -, -, hrfs, hattach⟩ :=
    post_post_tx_ok env req db _ db' htx
  have hlen256 := post_post_tx_ok_length env req db _ db' htx
  have hAlen : (attSpec db.localFiles env.freshId 0 req.files).length
      = req.files.length :=
    attachFiles_ok_length env.freshId req.files 0
      { db with posts := db.posts ++ [newPost env req] } db' hattach
  have hfilter : db'.remoteFiles.filter (fun rf => rf.postId == env.freshId)
      = attSpec db.localFiles env.freshId 0 req.files := by
    rw [hrfs, List.filter_append]
    have h1 : db.remoteFiles.filter (fun rf => rf.postId == env.freshId)
        = [] :=
      List.filter_eq_nil_iff.mpr (by intro a ha; simpa using hfresh a ha)
    have h2 : (attSpec db.localFiles env.freshId 0 req.files).filter
        (fun rf => rf.postId == env.freshId)
        = attSpec db.localFiles env.freshId 0 req.files :=
      List.filter_eq_self.mpr (by
        intro a ha
        simp [(attSpec_mem_postId db.localFiles env.freshId req.files 0 a
          ha).1])
    rw [h1, h2, List.nil_append]
  have hgetIdx : ∀ (k fid : Nat), req.files[k]? = some fid →
      ∃ f, db.localFiles.find? (fun lf => lf.id == fid) = some f ∧
        (attSpec db.localFiles env.freshId 0 req.files)[k]? =
          some { postId := env.freshId, order := (0 + k) % 256
                 mediaType := f.mediaType, url := f.url, alt := f.alt } :=
    fun k fid hk =>
      attachFiles_ok_get env.freshId req.files 0 k
        { db with posts := db.posts ++ [newPost env req] } db' fid hattach hk
  have horder : ∀ (j : Nat)
      (hj : j < (attSpec db.localFiles env.freshId 0 req.files).length),
      ((attSpec db.localFiles env.freshId 0 req.files).get ⟨j, hj⟩).order
        = j % 256 := by
    intro j hj
    have hjf : j < req.files.length := by rw [← hAlen]; exact hj
    obtain ⟨f, -, hA⟩ := hgetIdx j (req.files.get ⟨j, hjf⟩)
      (by rw [List.getElem?_eq_getElem hjf]; rfl)
    have hsome : (attSpec db.localFiles env.freshId 0 req.files)[j]? =
        some ((attSpec db.localFiles env.freshId 0 req.files).get ⟨j, hj⟩) := by
      rw [List.getElem?_eq_getElem hj, List.get_eq_getElem]
    rw [hA] at hsome
    have heq := Option.some.inj hsome
    rw [← heq]
    simp
  have hchain : (attSpec db.localFiles env.freshId 0 req.files).Chain'
      (fun a b => a.order ≤ b.order) := by
    apply List.chain'_iff_get.mpr
    intro i hi
    rw [horder i (by omega), horder (i + 1) (by omega)]
    have hi2 : i + 1 < (attSpec db.localFiles env.freshId 0 req.files).length := by
      omega
    rw [hAlen] at hi2
    omega
  have hsorted : sortByOrder (attSpec db.localFiles env.freshId 0 req.files)
      = attSpec db.localFiles env.freshId 0 req.files :=
    sortByOrder_eq_self _ hchain
  have hFsome : ∀ a ∈ attSpec db.localFiles env.freshId 0 req.files,
      (projectFile env a).isSome := by
    intro a ha
    obtain ⟨f, hf, hmt, hurl⟩ :=
      attSpec_mem_fields db.localFiles env.freshId req.files 0 a ha
    obtain ⟨hm, hu'⟩ := hparse f hf
    obtain ⟨m, hm'⟩ := Option.isSome_iff_exists.mp hm
    obtain ⟨w, hw⟩ := Option.isSome_iff_exists.mp hu'
    simp only [projectFile, hmt, hurl, hm', hw]
    rfl
  obtain ⟨hFlen, hFget⟩ := filterMap_all_some (projectFile env)
    (attSpec db.localFiles env.freshId 0 req.files) hFsome
  have hfind : db'.posts.find? (fun p => p.id == env.freshId)
      = some (newPost env req) := by
    rw [hposts]
    exact find?_append_new db.posts (newPost env req) hfreshq
  rw [get_post_eq_some env env.freshId db' (newPost env req) hfind rfl]
  simp only [hup]
  simp only [newPost]
  rw [hfilter, hsorted]
  refine ⟨_, rfl, hAlen, hFlen.trans hAlen, ?_⟩
  intro k fid hk
  have hkf : k < req.files.length := by
    obtain ⟨hh, -⟩ := List.getElem?_eq_some.mp hk
    exact hh
  obtain ⟨f, hfindf, hA⟩ := hgetIdx k fid hk
  have hkm : (0 + k) % 256 = k := by omega
  rw [hkm] at hA
  obtain ⟨pf, hpf, hgetF⟩ := hFget k _ hA
  simp only [projectFile] at hpf
  cases hm' : env.parseMime f.mediaType with
  | none =>
    simp only [hm'] at hpf
    exact absurd hpf (by simp)
  | some m =>
    simp only [hm'] at hpf
    cases hw : env.parseUrl f.url with
    | none =>
      simp only [hw] at hpf
      exact absurd hpf (by simp)
    | some w =>
      simp only [hw, Option.some.injEq] at hpf
      refine ⟨f, _, pf, hfindf, hA, rfl, rfl, rfl, rfl, hgetF, ?_, ?_, ?_⟩
      · rw [hm', ← hpf]
      · rw [hw, ← hpf]
      · rw [← hpf]

/-- A stored file with id 10. -/
def lfA : LocalFile :=
  { id := 10, mediaType := "image/png", url := "https://a", alt := some "a" }

/-- A stored file with id 20. -/
def lfB : LocalFile :=
  { id := 20, mediaType := "image/jpeg", url := "https://b", alt := none }

/-- A creation request attaching files 10 then 20. -/
def reqW1 : PostPostReq :=
  { replyId := none, text := "hello", title := none, visibility := .public
    isSensitive := false, files := [10, 20] }

/-- The store holding the two files before the creation. -/
def dbW1 : Db :=
  { posts := [], localFiles := [lfA, lfB], remoteFiles := [], reactions := []
    users := [] }

/-- The store after `post_post envW reqW1 dbW1`. -/
def dbW1' : Db :=
  { posts := [{ id := 1, createdAt := 0, replyId := none, text := "hello"
                title := none, userId := none, visibility := .public
                isSensitive := false
                uri := "https://example.com/ap/post/1" }]
    localFiles := [lfA, lfB]
    remoteFiles := [{ postId := 1, order := 0, mediaType := "image/png"
                      url := "https://a", alt := some "a" },
                    { postId := 1, order := 1, mediaType := "image/jpeg"
                      url := "https://b", alt := none }]
    reactions := [], users := [] }

/-- C1 witness: creating with the two concrete files then reading them
back yields exactly two attachments in creation order. -/
theorem post_create_read_attachment_order_witness :
    ∃ resp, get_post envW 1 dbW1' = .ok resp ∧ resp.files.length = 2 := by
  obtain ⟨resp, h1, -, h3, -⟩ := post_create_read_attachment_order envW reqW1
    dbW1 dbW1' 1 "https://example.com/ap/post/1"
    (by intro rf hrf; simp [dbW1] at hrf) rfl rfl (by decide)
  exact ⟨resp, h1, h3⟩
